import Mathlib

/-!
Shallow embedding of `src/transformer.py` from the repository
`Innova-ai-it/product-transformer`, together with theorems settling the
specification claims C1 to C10.

Modelling conventions, used throughout:

* The source reads its table with `pd.read_csv(dtype=str, keep_default_na=False)`,
  so every cell is a plain string and `pd.isna` is never true on a cell.
  A source row is therefore an association list from header name to string,
  plus the integer index label pandas assigns to the row (`master.name` in the
  source); `Series.get key default` is an association-list lookup with default.
* Python regular expressions are translated into explicit character scanners;
  each scanner documents the regex it implements.  The dot in the scanned
  patterns is modelled as matching any character (header names are single
  line strings).
* CPython `float` values are modelled as exact rationals; the accepted textual
  grammar (sign, digit groups with underscore separators, decimal point,
  exponent, and the `inf`, `infinity`, `nan` forms) follows `float(str)`.
  Decimal literals of the sizes appearing in catalog files are exactly
  representable, so the rational model agrees with IEEE doubles on them.
* Python `str.strip` and the regex class `\s` are modelled on the ASCII
  whitespace characters; `str.lower` is modelled on ASCII letters.  All header
  names and cell values exercised by the claims are ASCII.
-/

/-! ### Python string primitives -/

/-- ASCII whitespace, the characters Python `str.strip()` removes and `\s`
matches (restricted to ASCII, see the module comment). -/
def pyIsSpace (c : Char) : Bool :=
  c = ' ' || c = '\t' || c = '\n' || c = '\r' || c = '\x0b' || c = '\x0c'

/-- Strip `pyIsSpace` characters from both ends of a character list. -/
def stripList (l : List Char) : List Char :=
  ((l.dropWhile pyIsSpace).reverse.dropWhile pyIsSpace).reverse

/-- Python `str.strip()`. -/
def pyStrip (s : String) : String := String.mk (stripList s.data)

/-- Python `str.lower()` (ASCII letters). -/
def pyLower (s : String) : String := String.mk (s.data.map Char.toLower)

/-- Substring test: Python `needle in hay`. -/
def strContains (hay needle : String) : Bool :=
  hay.data.tails.any (fun t => needle.data.isPrefixOf t)

/-- Python `lst.lstrip(ch)`: drop every leading occurrence of one character. -/
def lstripChar (s : String) (ch : Char) : String :=
  String.mk (s.data.dropWhile (· = ch))

/-- Lexicographic comparison of strings by code point, Python `a <= b`. -/
def charListLe : List Char → List Char → Bool
  | [], _ => true
  | _ :: _, [] => false
  | a :: as, b :: bs => if a < b then true else if b < a then false else charListLe as bs

/-- Python `s.replace(a, b)` for one-character `a` and `b` (the only uses in
the source replace the comma by the dot), written as a character map so the
kernel can evaluate it. -/
def pyReplaceChar (s : String) (a b : Char) : String :=
  String.mk (s.data.map (fun c => if c = a then b else c))

/-- Truthiness of an optional string, Python `if x:` on `str or None`. -/
def optTruthy : Option String → Bool
  | none => false
  | some s => s ≠ ""

/-! ### CPython float literals, modelled over the rationals -/

/-- Exact value of a finite decimal literal: `num / 10 ^ e10`.  Keeping the
numerator and the power-of-ten denominator separate (instead of a normalized
`ℚ`) lets the kernel evaluate all arithmetic on it. -/
structure DecVal where
  num : Int
  e10 : Nat
deriving DecidableEq

/-- The rational number a `DecVal` denotes. -/
def DecVal.toRat (d : DecVal) : ℚ := (d.num : ℚ) / ((10 : ℚ) ^ d.e10)

/-- Executable comparison `d < k` for an integer bound `k`. -/
def DecVal.ltInt (d : DecVal) (k : Int) : Bool := d.num < k * (10 : Int) ^ d.e10

/-- Executable multiplication by 1000. -/
def DecVal.mul1000 (d : DecVal) : DecVal := ⟨d.num * 1000, d.e10⟩

/-- Executable truncation toward zero, Python `int(f)`. -/
def DecVal.trunc (d : DecVal) : Int :=
  if 0 ≤ d.num then (d.num.toNat / 10 ^ d.e10 : Nat)
  else -((d.num.natAbs / 10 ^ d.e10 : Nat) : Int)

/-- Result of `float(s)`: a finite value (exact decimal model), an infinity,
or a nan. -/
inductive PyFloat where
  | finite (d : DecVal)
  | inf (neg : Bool)
  | nan
deriving DecidableEq

/-- Take a maximal digit group with CPython underscore separators: a digit,
then digits where a single underscore may stand between two digits.  Returns
the digits (underscores removed) and the unconsumed rest. -/
def takeDigitsU : List Char → List Char × List Char
  | [] => ([], [])
  | c :: rest =>
    if c.isDigit then
      match rest with
      | '_' :: d :: r2 =>
        if d.isDigit then
          let p := takeDigitsU (d :: r2)
          (c :: p.1, p.2)
        else ([c], rest)
      | d :: r2 =>
        if d.isDigit then
          let p := takeDigitsU (d :: r2)
          (c :: p.1, p.2)
        else ([c], d :: r2)
      | [] => ([c], [])
    else ([], c :: rest)
termination_by structural l => l

/-- Numeric value of a digit list. -/
def natOfDigits (l : List Char) : Nat :=
  l.foldl (fun a c => 10 * a + (c.toNat - 48)) 0

/-- Value of a parsed literal: integer digits, fraction digits, exponent.
The denoted number is `±digits * 10 ^ (e - number of fraction digits)`. -/
def mkPyFloatVal (neg : Bool) (ip fp : List Char) (e : Int) : DecVal :=
  let m : Int := (natOfDigits (ip ++ fp) : Nat)
  let m := if neg then -m else m
  let e' : Int := e - fp.length
  if 0 ≤ e' then ⟨m * (10 : Int) ^ e'.toNat, 0⟩ else ⟨m, (-e').toNat⟩

/-- Parse the part after the mantissa: nothing, or `e`/`E` with signed digits.
Fails when the exponent is malformed or trailing characters remain. -/
def parsePyExp (neg : Bool) (ip fp : List Char) : List Char → Option PyFloat
  | [] => some (.finite (mkPyFloatVal neg ip fp 0))
  | e :: r2 =>
    if e = 'e' || e = 'E' then
      let (eneg, r3) : Bool × List Char :=
        match r2 with
        | '+' :: r => (false, r)
        | '-' :: r => (true, r)
        | _ => (false, r2)
      let (ed, r4) := takeDigitsU r3
      if ed.isEmpty || !r4.isEmpty then none
      else
        let ev : Int := (natOfDigits ed : Int)
        some (.finite (mkPyFloatVal neg ip fp (if eneg then -ev else ev)))
    else none

/-- Core of `float(s)` on an already stripped character list. -/
def pyFloatCore (l : List Char) : Option PyFloat :=
  let (neg, l1) : Bool × List Char :=
    match l with
    | '+' :: r => (false, r)
    | '-' :: r => (true, r)
    | _ => (false, l)
  let low := l1.map Char.toLower
  if low = "infinity".data || low = "inf".data then some (.inf neg)
  else if low = "nan".data then some .nan
  else
    let (d1, r1) := takeDigitsU l1
    match r1 with
    | '.' :: r2 =>
      let (d2, r3) := takeDigitsU r2
      if d1.isEmpty && d2.isEmpty then none else parsePyExp neg d1 d2 r3
    | _ => if d1.isEmpty then none else parsePyExp neg d1 [] r1

/-- Python `float(s)` as a partial function into `PyFloat`; `none` means the
call raises `ValueError`.  Surrounding whitespace is stripped as CPython does. -/
def pyFloat? (s : String) : Option PyFloat := pyFloatCore (stripList s.data)

/-- Python `int(f)` for a finite float value, truncation toward zero, stated
over the rationals (the executable counterpart is `DecVal.trunc`). -/
def pyTrunc (q : ℚ) : Int :=
  if 0 ≤ q then ⌊q⌋ else -⌊-q⌋

/-! ### Text normalizers of `transformer.py` -/

/-- The fixed Shopify destination column order (`SHOPIFY_COLUMNS`). -/
def SHOPIFY_COLUMNS : List String := [
  "Handle", "Title", "Body (HTML)", "Vendor", "Product Category", "Type", "Tags",
  "Published", "Option1 Name", "Option1 Value", "Option2 Name", "Option2 Value",
  "Option3 Name", "Option3 Value", "Variant SKU", "Variant Grams", "Variant Inventory Tracker",
  "Variant Inventory Qty", "Variant Inventory Policy", "Variant Fulfillment Service",
  "Variant Price", "Variant Compare At Price", "Variant Requires Shipping", "Variant Taxable",
  "Variant Barcode", "Image Src", "Image Position", "Image Alt Text", "Gift Card",
  "SEO Title", "SEO Description", "Google Shopping / Google Product Category",
  "Google Shopping / Gender", "Google Shopping / Age Group", "Google Shopping / MPN",
  "Google Shopping / AdWords Grouping", "Google Shopping / AdWords Labels",
  "Google Shopping / Condition", "Google Shopping / Custom Product",
  "Google Shopping / Custom Label 0", "Google Shopping / Custom Label 1",
  "Google Shopping / Custom Label 2", "Google Shopping / Custom Label 3",
  "Google Shopping / Custom Label 4", "Variant Image", "Variant Weight Unit",
  "Variant Tax Code", "Cost per item", "Status"]

/-- NFKD normalization followed by `encode("ascii", "ignore")`, per character:
ASCII passes through, Latin letters with diacritics decompose to their base
letter (the combining mark is then dropped by the ascii step), every other
non-ASCII character is dropped, as `ascii/ignore` does to non-decomposable
code points. -/
def nfkdAsciiChar (c : Char) : List Char :=
  if c.toNat < 128 then [c]
  else match c with
    | 'à' | 'á' | 'â' | 'ã' | 'ä' | 'å' => ['a']
    | 'è' | 'é' | 'ê' | 'ë' => ['e']
    | 'ì' | 'í' | 'î' | 'ï' => ['i']
    | 'ò' | 'ó' | 'ô' | 'õ' | 'ö' => ['o']
    | 'ù' | 'ú' | 'û' | 'ü' => ['u']
    | 'ý' | 'ÿ' => ['y']
    | 'ñ' => ['n']
    | 'ç' => ['c']
    | 'À' | 'Á' | 'Â' | 'Ã' | 'Ä' | 'Å' => ['A']
    | 'È' | 'É' | 'Ê' | 'Ë' => ['E']
    | 'Ì' | 'Í' | 'Î' | 'Ï' => ['I']
    | 'Ò' | 'Ó' | 'Ô' | 'Õ' | 'Ö' => ['O']
    | 'Ù' | 'Ú' | 'Û' | 'Ü' => ['U']
    | 'Ý' => ['Y']
    | 'Ñ' => ['N']
    | 'Ç' => ['C']
    | _ => []

/-- Python `\w` after the ascii step: ASCII letters, digits, underscore. -/
def isWordAscii (c : Char) : Bool := c.isAlpha || c.isDigit || c = '_'

/-- Characters merged by the final `re.sub(..., "-")` of `slugify`:
the class `[-\s]`. -/
def isHyphenSpace (c : Char) : Bool := pyIsSpace c || c = '-'

/-- Worker for `re.sub(r"[-\s]+", "-", s)`: the flag records whether the scan
stands inside a run of hyphen or whitespace characters whose replacement
hyphen was already emitted. -/
def collapseRunsAux (inRun : Bool) : List Char → List Char
  | [] => []
  | c :: cs =>
    if isHyphenSpace c then
      if inRun then collapseRunsAux true cs else '-' :: collapseRunsAux true cs
    else c :: collapseRunsAux false cs

/-- `re.sub(r"[-\s]+", "-", s)`: every maximal run of hyphens and whitespace
becomes a single hyphen. -/
def collapseRuns (l : List Char) : List Char := collapseRunsAux false l

/-- `slugify` of `transformer.py`: NFKD + ascii-ignore, drop everything except
word characters, whitespace and hyphens, strip, lowercase, collapse hyphen and
whitespace runs to single hyphens, with fallbacks for falsy strings. -/
def slugify (value : String) : String :=
  if value = "" then ""
  else
    let l := (value.data.map nfkdAsciiChar).flatten
    let l := l.filter (fun c => isWordAscii c || pyIsSpace c || c = '-')
    let l := stripList l
    let l := l.map Char.toLower
    let l := collapseRuns l
    if l.isEmpty then "product" else String.mk l

/-- Split on the delimiters of `split_images`:
`re.split(r"\r\n|\n|[,|;]+", s)`.  Runs of `[,|;]` in the regex yield one
break where the per-character split below yields empty pieces; the caller
filters empty pieces, so the results agree. -/
def splitImgDelims : List Char → List (List Char)
  | [] => [[]]
  | '\r' :: '\n' :: rest => [] :: splitImgDelims rest
  | c :: rest =>
    if c = '\n' || c = ',' || c = '|' || c = ';' then [] :: splitImgDelims rest
    else match splitImgDelims rest with
      | [] => [[c]]
      | p :: ps => (c :: p) :: ps

/-- `split_images`: strip the cell, split on the tolerant delimiter set, strip
the pieces and drop the empty ones.  (`None`, `NaN` and list cells of the
source cannot occur for string-typed frames, see the module comment.) -/
def split_images (cell : String) : List String :=
  let s := pyStrip cell
  if s = "" then []
  else ((splitImgDelims s.data).map (fun p => pyStrip (String.mk p))).filter (· ≠ "")

/-- Split on the delimiters of `parse_attribute_values`:
`re.split(r"\s*\|\s*|\s*,\s*|\s*;\s*", s)`.  The `\s*` context around each
one-character delimiter is absorbed here by stripping every piece; combined
with the final non-empty filter this yields the same list as the regex split. -/
def splitAttrDelims : List Char → List (List Char)
  | [] => [[]]
  | c :: rest =>
    if c = '|' || c = ',' || c = ';' then [] :: splitAttrDelims rest
    else match splitAttrDelims rest with
      | [] => [[c]]
      | p :: ps => (c :: p) :: ps

/-- `parse_attribute_values`: a delimited list cell such as `"M | L | XL"`
becomes `["M", "L", "XL"]`; blank cells give the empty list. -/
def parse_attribute_values (val : String) : List String :=
  if pyStrip val = "" then []
  else
    ((splitAttrDelims (pyStrip val).data).map (fun p => pyStrip (String.mk p))).filter (· ≠ "")

/-- `clean_price`: remove currency symbols, commas and whitespace, then keep
the result only when `float` accepts it.  The comma-to-dot replacement of the
source is kept although it is dead code: the commas were already removed by
the character filter one line earlier. -/
def clean_price (price_val : String) : String :=
  let s := pyStrip price_val
  let s := String.mk (s.data.filter (fun c => !(c = '€' || c = '$' || c = '£' || c = ',' || pyIsSpace c)))
  let s := pyReplaceChar s ',' '.'
  if (pyFloat? s).isSome then s else ""

/-- Remove weight units exactly as `re.sub(r"(kg|g|gr|grams?|kilos?)", "", s)`
does: the scan moves left to right and at each position the alternatives are
tried in the written order.  Because the single-letter alternative `g` is
tried before `gr`, `grams` and `gram`, those three alternatives can never
match (any occurrence starts with `g`), so they have no cases here; `kilos`
is tried before `kilo` as the greedy `s?` does.  The input is already
lowercased by the caller. -/
def removeUnits : List Char → List Char
  | [] => []
  | 'k' :: 'g' :: rest => removeUnits rest
  | 'g' :: rest => removeUnits rest
  | 'k' :: 'i' :: 'l' :: 'o' :: 's' :: rest => removeUnits rest
  | 'k' :: 'i' :: 'l' :: 'o' :: rest => removeUnits rest
  | c :: rest => c :: removeUnits rest

/-- The textual pipeline of `clean_weight` up to and including the `float`
call: lowercase and strip the cell, remove the unit suffixes, strip again,
replace the decimal comma, parse. -/
def weightParsed? (weight_val : String) : Option PyFloat :=
  let s := pyLower (pyStrip weight_val)
  let s := pyStrip (String.mk (removeUnits s.data))
  let s := pyReplaceChar s ',' '.'
  pyFloat? s

/-- `clean_weight`: lowercase, strip units, parse (`weightParsed?` holds that
pipeline); values below 10 are read as kilograms and scaled to grams; the
result is `str(int(...))`.  `int` of an infinity or nan raises in the source
and is caught by the bare `except`, hence the empty string in those branches. -/
def clean_weight (weight_val : String) : String :=
  match weightParsed? weight_val with
  | some (.finite d) =>
    let d := if d.ltInt 10 then d.mul1000 else d
    toString d.trunc
  | some _ => ""
  | none => ""

/-- `to_wix_url`: pass URLs through, otherwise prefix the Wix static host. -/
def to_wix_url (filename : String) : String :=
  if filename = "" then ""
  else
    let f := pyStrip filename
    if f.startsWith "http://" || f.startsWith "https://" then f
    else if strContains f "static.wixstatic.com" then f
    else "https://static.wixstatic.com/media/" ++ lstripChar (lstripChar f '/') '\\'

/-! ### Platform detection (`detect_file_type`) -/

/-- The WooCommerce indicator terms of `detect_file_type`. -/
def woo_indicators : List String :=
  ["tipo", "type", "attribute 1", "regular price", "prezzo", "images", "immagini"]

/-- The PrestaShop indicator terms of `detect_file_type`. -/
def prestashop_indicators : List String := ["id_product", "reference", "categories"]

/-- Number of indicator terms that occur inside some lowercased header. -/
def indicatorCount (inds headers : List String) : Nat :=
  (inds.filter (fun ind => (headers.map pyLower).any (fun c => strContains c ind))).length

/-- Wix test of `detect_file_type`: some lowercased header contains `media`
or `product_media` (the second disjunct is subsumed by the first, kept to
mirror the source). -/
def wixCond (headers : List String) : Bool :=
  (headers.map pyLower).any (fun c => strContains c "media" || strContains c "product_media")

/-- `detect_file_type`, over the header list of the data frame. -/
def detect_file_type (headers : List String) : String :=
  if wixCond headers then "wix"
  else if 2 ≤ indicatorCount woo_indicators headers then "woocommerce"
  else if 2 ≤ indicatorCount prestashop_indicators headers then "prestashop"
  else "unknown"

/-! ### Column detection (`detect_common_columns`, `find_attribute_columns`) -/

/-- `lower_map[key]` of `detect_common_columns`: the dict comprehension maps
each lowercased header to the header, a later duplicate overwriting an
earlier one, hence the last matching header wins. -/
def lowerMapGet (headers : List String) (key : String) : Option String :=
  (headers.filter (fun c => pyLower c = key)).getLast?

/-- `find_any` of `detect_common_columns`: the first candidate whose lowercase
form is a key of the lowercase header map. -/
def find_any (headers : List String) : List String → Option String
  | [] => none
  | cand :: rest =>
    match lowerMapGet headers (pyLower cand) with
    | some h => some h
    | none => find_any headers rest

/-- The semantic field map returned by `detect_common_columns`; each field
holds the matched source header, if any. -/
structure CommonCols where
  id : Option String := none
  title : Option String := none
  price : Option String := none
  sale_price : Option String := none
  sku : Option String := none
  barcode : Option String := none
  stock : Option String := none
  images : Option String := none
  desc : Option String := none
  weight : Option String := none
  type : Option String := none
  tags : Option String := none
  vendor : Option String := none
deriving DecidableEq

/-- `detect_common_columns` with its ordered candidate lists. -/
def detect_common_columns (headers : List String) : CommonCols where
  id := find_any headers ["ID", "id", "post_id", "product_id", "handleid"]
  title := find_any headers ["Name", "Nome", "post_title", "title", "Title"]
  price := find_any headers ["Regular price", "Prezzo", "Price", "regular_price", "price"]
  sale_price := find_any headers ["Sale price", "Prezzo scontato", "sale_price", "compare_at_price"]
  sku := find_any headers ["SKU", "sku"]
  barcode := find_any headers ["Barcode", "barcode", "ean", "EAN", "gtin"]
  stock := find_any headers ["Stock", "Stock quantity", "Quantity", "quantity", "stock_quantity", "Giacenza"]
  images := find_any headers ["Images", "Immagini", "Gallery", "Image", "media", "media url", "product_media"]
  desc := find_any headers ["Description", "Descrizione", "post_content", "body", "Body (HTML)"]
  weight := find_any headers ["Weight", "Peso", "weight", "weight_kg", "weight_g", "Variant Grams"]
  type := find_any headers ["Type", "Tipo", "post_type", "Product type"]
  tags := find_any headers ["Tags", "tags", "Tag"]
  vendor := find_any headers ["Vendor", "vendor", "brand", "marca"]

/-- Does the word `pat` occur starting at index `i`? -/
def prefixAt (l pat : List Char) (i : Nat) : Bool := pat.isPrefixOf (l.drop i)

/-- All start indices of occurrences of `pat` in `l`, ascending. -/
def occIdxs (l pat : List Char) : List Nat :=
  (List.range (l.length + 1)).filter (prefixAt l pat)

/-- First index `≥ start` whose character satisfies `p`. -/
def findIdxFrom (p : Char → Bool) (l : List Char) (start : Nat) : Option Nat :=
  ((List.range l.length).filter (fun i => start ≤ i && p (l.getD i ' '))).head?

/-- Maximal digit run starting at index `i`. -/
def digitRunAt (l : List Char) (i : Nat) : List Char := (l.drop i).takeWhile Char.isDigit

/-- Length of the whitespace run starting at index `i`. -/
def wsRunLenAt (l : List Char) (i : Nat) : Nat := ((l.drop i).takeWhile pyIsSpace).length

/-- `re.search(r"w1.*w2.*?(\d+)", lc)` and its captured group, for literal
words `w1`, `w2`: the search chooses the leftmost feasible start of `w1`,
the greedy `.*` then picks the rightmost occurrence of `w2` that still has a
digit somewhere after it, the lazy `.*?` stops at the first digit after that
occurrence, and `(\d+)` is greedy. -/
def searchTwoWordIdx (l w1 w2 : List Char) : Option String :=
  let occ2 := (occIdxs l w2).filter (fun j => (findIdxFrom Char.isDigit l (j + w2.length)).isSome)
  match ((occIdxs l w1).filter (fun i => occ2.any (fun j => i + w1.length ≤ j))).head? with
  | none => none
  | some i =>
    match (occ2.filter (fun j => i + w1.length ≤ j)).getLast? with
    | none => none
    | some j =>
      match findIdxFrom Char.isDigit l (j + w2.length) with
      | none => none
      | some p => some (String.mk (digitRunAt l p))

/-- Does the lookahead body `\s*name` match at position `pos`?  The `\s*` may
take any prefix of the whitespace run at `pos`. -/
def nameLookaheadAt (l : List Char) (pos : Nat) : Bool :=
  (List.range (wsRunLenAt l pos + 1)).any (fun k => prefixAt l "name".data (pos + k))

/-- `re.search(r"attribute\s*(\d+)(?!\s*name)", lc)` and its captured group.
The scan over start positions is leftmost; after `attribute` the greedy `\s*`
must take the whole whitespace run (a shorter take leaves a whitespace where
`\d` is required), and the greedy `(\d+)` backtracks from the full digit run
down to one digit until the negative lookahead is satisfied. -/
def searchAttrNum (l : List Char) : Option String :=
  (List.range (l.length + 1)).findSome? (fun i =>
    if prefixAt l "attribute".data i then
      let s := i + 9 + wsRunLenAt l (i + 9)
      let run := digitRunAt l s
      if run.isEmpty then none
      else
        (List.range run.length).findSome? (fun t =>
          let d := run.length - t
          if nameLookaheadAt l (s + d) then none else some (String.mk (run.take d)))
    else none)

/-- The trailing slug test of `find_attribute_columns`:
`re.match(r"attribute_[a-z_]+$", lc)`. -/
def matchAttrSlug (lc : List Char) : Bool :=
  "attribute_".data.isPrefixOf lc &&
    (let rest := lc.drop 10
     !rest.isEmpty && rest.all (fun c => ('a' ≤ c && c ≤ 'z') || c = '_'))

/-- Insert-or-replace on an association list, keeping the position of an
existing key exactly as assignment to a Python dict key does. -/
def alSet (al : List (String × String)) (k v : String) : List (String × String) :=
  if al.any (fun p => p.1 = k) then al.map (fun p => if p.1 = k then (k, v) else p)
  else al ++ [(k, v)]

/-- Association-list lookup, Python `d.get(k)` (keys are unique). -/
def alGet (al : List (String × String)) (k : String) : Option String :=
  (al.find? (fun p => p.1 = k)).map (·.2)

/-- One loop iteration of `find_attribute_columns` for header `c`: the
patterns are tried in the order of the source, each hit ending the iteration. -/
def findAttrStep (maps : List (String × String) × List (String × String))
    (c : String) : List (String × String) × List (String × String) :=
  let (names, values) := maps
  let lc := (pyLower c).data
  match searchTwoWordIdx lc "attribute".data "name".data with
  | some idx => (alSet names idx c, values)
  | none =>
  match searchTwoWordIdx lc "nome".data "attributo".data with
  | some idx => (alSet names idx c, values)
  | none =>
  match searchTwoWordIdx lc "attribute".data "value".data with
  | some idx => (names, alSet values idx c)
  | none =>
  match searchAttrNum lc with
  | some idx =>
    if (alGet values idx).isSome then (names, values) else (names, alSet values idx c)
  | none =>
  if strContains (String.mk lc) "attribute_pa_" || matchAttrSlug lc then
    (names, alSet values (String.mk lc) c)
  else (names, values)

/-- `find_attribute_columns`: the attribute-name and attribute-value maps,
as insertion-ordered association lists keyed by the captured index string. -/
def find_attribute_columns (headers : List String) :
    List (String × String) × List (String × String) :=
  headers.foldl findAttrStep ([], [])

/-! ### Source rows and destination rows -/

/-- One source row: the integer index label pandas assigned to it (used by
the handle fallback `product-` + `master.name`) and the header-to-cell map. -/
structure SrcRow where
  label : Nat
  cells : List (String × String)
deriving DecidableEq

/-- `row.get(col)` (no default): `none` when the column is absent. -/
def rowGet? (r : SrcRow) (c : String) : Option String :=
  (r.cells.find? (fun p => p.1 = c)).map (·.2)

/-- `row.get(col, default)`. -/
def rowGetD (r : SrcRow) (c : String) (d : String) : String := (rowGet? r c).getD d

/-- Truthiness of `row.get(col)`: present and non-empty. -/
def rowTruthy (r : SrcRow) (c : String) : Bool := ((rowGet? r c).getD "") ≠ ""

/-- The pattern `str(master.get(col, "")).strip() if col else ""` of the
source, also used with other defaults for the missing-column case. -/
def fieldStrD (fld : Option String) (m : SrcRow) (dflt : String) : String :=
  if optTruthy fld then pyStrip (rowGetD m (fld.getD "") "") else dflt

/-- `fieldStrD` with the empty-string default. -/
def fieldStr (fld : Option String) (m : SrcRow) : String := fieldStrD fld m ""

/-- A destination row: the Shopify column dictionary in insertion order. -/
abbrev DestRow := List (String × String)

/-- The dict comprehension seeding every destination row with empty strings
over the full fixed column order. -/
def emptyRow : DestRow := SHOPIFY_COLUMNS.map (fun c => (c, ""))

/-- Assignment `r[k] = v` on a destination row: the first (and, keys being
unique, only) entry holding `k` is replaced in place, exactly as assignment
to an existing Python dict key keeps its insertion position.  Every key the
builder assigns is present in `emptyRow`, so the absent-key case (where a
dict would append) cannot occur and is a no-op here. -/
def setCol : DestRow → String → String → DestRow
  | [], _, _ => []
  | p :: t, k, v => if p.1 = k then (k, v) :: t else p :: setCol t k v

/-- Lookup of a destination cell. -/
def getCol : DestRow → String → Option String
  | [], _ => none
  | p :: t, k => if p.1 = k then some p.2 else getCol t k

/-- The in-memory variant record built per variant (the dict literal of the
source, string fields plus image and option lists). -/
structure VariantRec where
  sku : String
  price : String
  compare_at_price : String
  stock : String
  barcode : String
  weight : String
  images : List String
  options : List String
deriving DecidableEq

/-- The master-level values computed once per group before the variant loop. -/
structure MasterVals where
  sku : String
  price : String
  sale : String
  stock : String
  barcode : String
  weight : String
  images : List String
deriving DecidableEq

/-- The per-row test for explicit variant rows:
`str(r.get("Type", "")).lower() == "variation" or` the same on `"type"`.
Note the literal header names; the mapped `type` column is not used here. -/
def isVariationRow (r : SrcRow) : Bool :=
  pyLower (rowGetD r "Type" "") = "variation" || pyLower (rowGetD r "type" "") = "variation"

/-- The explicit variant rows of a group (`var_rows` in the source). -/
def explicitVariantRows (g : List SrcRow) : List SrcRow := g.filter isVariationRow

/-- One explicit variant record (`var_rows` branch of the source).  For each
scalar field the master value is passed as the `Series.get` default, which
only applies when the column is absent from the row, not when the cell is
empty. -/
def explicitVariantOf (common : CommonCols) (avm : List (String × String))
    (source_type : String) (mv : MasterVals) (vr : SrcRow) : VariantRec where
  sku := if optTruthy common.sku then pyStrip (rowGetD vr (common.sku.getD "") mv.sku) else mv.sku
  price := if optTruthy common.price then clean_price (rowGetD vr (common.price.getD "") mv.price) else mv.price
  compare_at_price := if optTruthy common.sale_price then clean_price (rowGetD vr (common.sale_price.getD "") mv.sale) else mv.sale
  stock := if optTruthy common.stock then pyStrip (rowGetD vr (common.stock.getD "") mv.stock) else mv.stock
  barcode := if optTruthy common.barcode then pyStrip (rowGetD vr (common.barcode.getD "") mv.barcode) else mv.barcode
  weight := if optTruthy common.weight then clean_weight (rowGetD vr (common.weight.getD "") mv.weight) else mv.weight
  images :=
    let base :=
      if optTruthy common.images && rowTruthy vr (common.images.getD "") then
        split_images (rowGetD vr (common.images.getD "") "")
      else mv.images
    if source_type = "wix" then base.map to_wix_url else base
  options :=
    avm.filterMap (fun p =>
      match rowGet? vr p.2 with
      | some v => if pyStrip v ≠ "" then some (pyStrip v) else none
      | none => none)

/-- The attribute value lists discovered on the master row (`lists` in the
synthesis branch).  The first loop walks the attribute-name map and keeps the
parsed list of the paired value column whenever the value column name and the
master cell are truthy; when it finds nothing and the value map is non-empty,
the fallback loop walks the value map directly.  (The `option_names` list
built alongside `lists` in the source is written and never read, the final
option names being recomputed later, so it has no counterpart here.) -/
def discoveredLists (m : SrcRow) (anm avm : List (String × String)) : List (List String) :=
  let l1 := anm.filterMap (fun p =>
    match alGet avm p.1 with
    | some valCol =>
      if valCol ≠ "" && rowTruthy m valCol then
        some (parse_attribute_values (rowGetD m valCol ""))
      else none
    | none => none)
  if l1.isEmpty && !avm.isEmpty then
    avm.filterMap (fun p =>
      let v := rowGetD m p.2 ""
      if v ≠ "" && pyStrip v ≠ "" then some (parse_attribute_values v) else none)
  else l1

/-- `itertools.product`: the leftmost list varies slowest. -/
def cartesianProd : List (List String) → List (List String)
  | [] => [[]]
  | l :: ls => (l.map (fun x => (cartesianProd ls).map (x :: ·))).flatten

/-- A non-option variant record sharing every master value (used by both the
Cartesian combinations and the single simple variant). -/
def masterVariant (mv : MasterVals) (opts : List String) : VariantRec where
  sku := mv.sku
  price := mv.price
  compare_at_price := mv.sale
  stock := mv.stock
  barcode := mv.barcode
  weight := mv.weight
  images := mv.images
  options := opts

/-- `re.search(r"\d+", k)` and `int` of the match: the value of the first
digit run of a key, if any. -/
def firstDigitRunNat (s : String) : Option Nat :=
  match findIdxFrom Char.isDigit s.data 0 with
  | some i => some (natOfDigits (digitRunAt s.data i))
  | none => none

/-- Stable insertion into an ascending list: a new element goes after every
element less than or equal to it, which preserves the original order of
equal keys exactly as the stable Python sort does. -/
def insSorted (le : String → String → Bool) (x : String) : List String → List String
  | [] => [x]
  | y :: t => if le y x then y :: insSorted le x t else x :: y :: t

/-- Stable ascending sort. -/
def stableSortBy (le : String → String → Bool) (l : List String) : List String :=
  l.foldl (fun acc x => insSorted le x acc) []

/-- `sorted(keys, key=lambda k: int(...) if re.search(r"\d+", ...) else str(k))`
inside `try`/`except`: when every key yields an `int` the sort is numeric,
when every key yields a `str` it is lexicographic, and a mixed list raises
`TypeError` on the first cross comparison, leaving insertion order. -/
def sortKeysPy (ks : List String) : List String :=
  if ks.all (fun k => (firstDigitRunNat k).isSome) then
    stableSortBy (fun a b => (firstDigitRunNat a).getD 0 ≤ (firstDigitRunNat b).getD 0) ks
  else if ks.all (fun k => (firstDigitRunNat k).isNone) then
    stableSortBy (fun a b => charListLe a.data b.data) ks
  else ks

/-- `option_names_final`: from the sorted attribute-name keys, reading each
name cell of the master row with the positional `OptionN` default; with no
name columns, generic `OptionN` names, one per attribute-value key. -/
def optionNamesFinal (m : SrcRow) (anm avm : List (String × String)) : List String :=
  if !anm.isEmpty then
    (sortKeysPy (anm.map Prod.fst)).enum.map (fun p =>
      rowGetD m ((alGet anm p.2).getD "") ("Option" ++ toString (p.1 + 1)))
  else
    (sortKeysPy (avm.map Prod.fst)).enum.map (fun p => "Option" ++ toString (p.1 + 1))

/-- Emission of one destination row from a variant record, mirroring the
row loop of the source; `first` marks the row carrying the product-level
fields. -/
def emitRow (first : Bool) (handle title desc vendor ptype tags : String)
    (optNames : List String) (v : VariantRec) : DestRow :=
  let r := emptyRow
  let r :=
    if first then
      let r := setCol r "Handle" handle
      let r := setCol r "Title" title
      let r := setCol r "Body (HTML)" desc
      let r := setCol r "Vendor" vendor
      let r := setCol r "Type" ptype
      let r := setCol r "Tags" tags
      let r := setCol r "Published" "TRUE"
      setCol r "Status" "active"
    else setCol r "Handle" handle
  let r :=
    if 0 < optNames.length then
      setCol (setCol r "Option1 Name" (optNames.getD 0 ""))
        "Option1 Value" (v.options.getD 0 "Default Title")
    else r
  let r :=
    if 1 < optNames.length then
      setCol (setCol r "Option2 Name" (optNames.getD 1 ""))
        "Option2 Value" (v.options.getD 1 "")
    else r
  let r :=
    if 2 < optNames.length then
      setCol (setCol r "Option3 Name" (optNames.getD 2 ""))
        "Option3 Value" (v.options.getD 2 "")
    else r
  let r := setCol r "Variant SKU" v.sku
  let r := setCol r "Variant Price" v.price
  let r := setCol r "Variant Compare At Price" v.compare_at_price
  let r := setCol r "Variant Inventory Qty" v.stock
  let r := setCol r "Variant Barcode" v.barcode
  let r := setCol r "Variant Grams" v.weight
  let r := setCol r "Variant Weight Unit" "g"
  let r := setCol r "Variant Inventory Tracker" "shopify"
  let r := setCol r "Variant Inventory Policy" "deny"
  let r := setCol r "Variant Fulfillment Service" "manual"
  let r := setCol r "Variant Requires Shipping" "TRUE"
  let r := setCol r "Variant Taxable" "TRUE"
  match v.images with
  | [] => r
  | i0 :: _ =>
    setCol (if first then setCol (setCol r "Image Src" i0) "Image Position" "1" else r)
      "Variant Image" i0

/-- The row loop of the source: the first variant record is emitted with the
product-level fields, every later one with the shared handle only. -/
def emitRows (handle title desc vendor ptype tags : String)
    (optNames : List String) : List VariantRec → List DestRow
  | [] => []
  | v :: vs =>
    emitRow true handle title desc vendor ptype tags optNames v ::
      vs.map (emitRow false handle title desc vendor ptype tags optNames)

/-- The master-level values computed before the variant loop of
`build_shopify_rows_from_group`. -/
def masterValsOf (common : CommonCols) (source_type : String) (master : SrcRow) :
    MasterVals where
  sku := fieldStr common.sku master
  price := if optTruthy common.price then clean_price (rowGetD master (common.price.getD "") "") else ""
  sale := if optTruthy common.sale_price then clean_price (rowGetD master (common.sale_price.getD "") "") else ""
  stock := fieldStrD common.stock master "0"
  barcode := fieldStr common.barcode master
  weight := if optTruthy common.weight then clean_weight (rowGetD master (common.weight.getD "") "") else ""
  images :=
    let i := if optTruthy common.images then split_images (rowGetD master (common.images.getD "") "") else []
    if source_type = "wix" then i.map to_wix_url else i

/-- The handle of a group: the slugified title, or the synthetic
`product-` + master row label when the slug is empty
(`slugify(title) or f"product-{master.name}"`). -/
def groupHandle (common : CommonCols) (master : SrcRow) : String :=
  let s := slugify (fieldStr common.title master)
  if s = "" then "product-" ++ toString master.label else s

/-- The variant records of a group: one per explicit variant row when any
exists, else the Cartesian combinations of the discovered attribute lists,
else the single simple variant. -/
def groupVariants (master : SrcRow) (group : List SrcRow) (common : CommonCols)
    (anm avm : List (String × String)) (source_type : String) : List VariantRec :=
  let mv := masterValsOf common source_type master
  let varRows := explicitVariantRows group
  if !varRows.isEmpty then
    varRows.map (explicitVariantOf common avm source_type mv)
  else
    let lists := discoveredLists master anm avm
    if !lists.isEmpty then (cartesianProd lists).map (masterVariant mv)
    else [masterVariant mv []]

/-- `build_shopify_rows_from_group`.  An empty group is impossible for the
callers (pandas `groupby` yields non-empty groups; the source would raise on
`group.iloc[0]`) and returns no rows here. -/
def build_shopify_rows_from_group (group : List SrcRow) (common : CommonCols)
    (anm avm : List (String × String)) (source_type : String) : List DestRow :=
  match group with
  | [] => []
  | master :: rest =>
    emitRows (groupHandle common master) (fieldStr common.title master)
      (fieldStr common.desc master) (fieldStr common.vendor master)
      (fieldStr common.type master) (fieldStr common.tags master)
      (optionNamesFinal master anm avm)
      (groupVariants master (master :: rest) common anm avm source_type)

/-! ### Converters and public dispatch -/

/-- First occurrences of the keys, in order (`pandas.groupby(sort=False)`
group order). -/
def firstOccsAux (seen : List String) : List String → List String
  | [] => []
  | k :: rest =>
    if seen.contains k then firstOccsAux seen rest
    else k :: firstOccsAux (k :: seen) rest

/-- The distinct values of a list in first-occurrence order. -/
def firstOccs (l : List String) : List String := firstOccsAux [] l

/-- `df.groupby(id_col, dropna=False, sort=False)`: one group per distinct
key in first-appearance order, each keeping the original row order. -/
def groupRowsBy (key : SrcRow → String) (rows : List SrcRow) : List (List SrcRow) :=
  (firstOccs (rows.map key)).map (fun k => rows.filter (fun r => key r = k))

/-- The shared body of `convert_woocommerce_df_to_shopify` and
`convert_wix_df_to_shopify` (the two source functions are identical except
for the `source_type` argument).  The grouping key column is the mapped `id`
header, else the first header; with no headers at all the source groups by
the index produced by `reset_index`, modelled by the row label. -/
def convertWith (source_type : String) (headers : List String)
    (rows : List SrcRow) : List DestRow :=
  let common := detect_common_columns headers
  let maps := find_attribute_columns headers
  let key : SrcRow → String :=
    match (if optTruthy common.id then common.id else headers.head?) with
    | some c => fun r => rowGetD r c ""
    | none => fun r => toString r.label
  ((groupRowsBy key rows).map
    (fun g => build_shopify_rows_from_group g common maps.1 maps.2 source_type)).flatten

/-- `convert_woocommerce_df_to_shopify`. -/
def convert_woocommerce_df_to_shopify (headers : List String) (rows : List SrcRow) :
    List DestRow := convertWith "woocommerce" headers rows

/-- `convert_wix_df_to_shopify`. -/
def convert_wix_df_to_shopify (headers : List String) (rows : List SrcRow) :
    List DestRow := convertWith "wix" headers rows

/-- The conversion dispatch of `convert_csv_path_to_shopify_csv`: wix and
woocommerce use their converters, any other detection result falls back to
the WooCommerce conversion (file reading and writing are outside the model). -/
def convertTable (headers : List String) (rows : List SrcRow) : List DestRow :=
  let file_type := detect_file_type headers
  if file_type = "wix" then convert_wix_df_to_shopify headers rows
  else if file_type = "woocommerce" then convert_woocommerce_df_to_shopify headers rows
  else convert_woocommerce_df_to_shopify headers rows

/-! ### Concrete inputs used by the counterexamples and witnesses -/

/-- The master row of the C1 counterexample group: its only attribute-value
cell is `"|"`, which is truthy yet parses to the empty value list. -/
def cexMasterC1 : SrcRow := ⟨0, [("ID", "1"), ("Name", "Hat"), ("Attr2", "|")]⟩

/-- The C1 counterexample group. -/
def cexGroupC1 : List SrcRow := [cexMasterC1]

/-- The common-column map of the C1 counterexample. -/
def cexCommonC1 : CommonCols := { id := some "ID", title := some "Name" }

/-- The C3 counterexample group: the master row carries SKU `"ABC"`, the
explicit variant row has an empty SKU cell. -/
def cexGroupC3 : List SrcRow :=
  [⟨0, [("ID", "7"), ("Name", "Shirt"), ("Type", "variable"), ("SKU", "ABC")]⟩,
   ⟨1, [("ID", "7"), ("Name", ""), ("Type", "variation"), ("SKU", "")]⟩]

/-- The common-column map of the C3 counterexample. -/
def cexCommonC3 : CommonCols :=
  { id := some "ID", title := some "Name", sku := some "SKU", type := some "Type" }

/-- The C7 counterexample group: blank title, product identifier `"SKU9"`. -/
def cexGroupC7 : List SrcRow := [⟨0, [("ID", "SKU9"), ("Name", " ")]⟩]

/-- The common-column map of the C7 counterexample. -/
def cexCommonC7 : CommonCols := { id := some "ID", title := some "Name" }

/-! ### Lemmas about destination rows -/

theorem keys_setCol (r : DestRow) (k v : String) :
    (setCol r k v).map Prod.fst = r.map Prod.fst := by
  induction r with
  | nil => rfl
  | cons p t ih =>
    by_cases h : p.1 = k <;> simp [setCol, h, ih]

theorem getCol_setCol (r : DestRow) (k v k' : String) :
    getCol (setCol r k v) k' =
      if k' = k then (getCol r k).map (fun _ => v) else getCol r k' := by
  induction r with
  | nil => by_cases h : k' = k <;> simp [getCol, setCol, h]
  | cons p t ih =>
    by_cases hpk : p.1 = k
    · by_cases hk : k' = k
      · subst hk; simp [getCol, setCol, hpk]
      · have h1 : ¬k = k' := fun h => hk h.symm
        have h2 : ¬p.1 = k' := fun h => hk (h ▸ hpk)
        simp [getCol, setCol, hpk, hk, h1, h2]
    · by_cases hk : k' = k
      · subst hk
        simp [getCol, setCol, hpk, ih]
      · by_cases hp : p.1 = k' <;> simp [getCol, setCol, hpk, hp, ih, hk]

theorem getCol_isSome_of_mem_keys {r : DestRow} {c : String}
    (h : c ∈ r.map Prod.fst) : (getCol r c).isSome := by
  induction r with
  | nil => simp at h
  | cons p t ih =>
    simp only [List.map_cons, List.mem_cons] at h
    by_cases hp : p.1 = c
    · simp [getCol, hp]
    · rcases h with h | h
      · exact absurd h.symm hp
      · simp [getCol, hp, ih h]

theorem keys_emptyRow : emptyRow.map Prod.fst = SHOPIFY_COLUMNS := by
  simp only [emptyRow, List.map_map]
  have h : (Prod.fst ∘ fun c : String => (c, "")) = id := rfl
  rw [h, List.map_id]

theorem getCol_emptyRow_handle : getCol emptyRow "Handle" = some "" := by decide

theorem getCol_emptyRow_wwu : getCol emptyRow "Variant Weight Unit" = some "" := by decide

theorem getCol_emptyRow_tracker : getCol emptyRow "Variant Inventory Tracker" = some "" := by decide

theorem getCol_emptyRow_policy : getCol emptyRow "Variant Inventory Policy" = some "" := by decide

theorem getCol_emptyRow_fulfil : getCol emptyRow "Variant Fulfillment Service" = some "" := by decide

theorem getCol_emptyRow_shipping : getCol emptyRow "Variant Requires Shipping" = some "" := by decide

theorem getCol_emptyRow_taxable : getCol emptyRow "Variant Taxable" = some "" := by decide

theorem keys_emitRow (first : Bool) (h t d vd pt tg : String)
    (ns : List String) (v : VariantRec) :
    (emitRow first h t d vd pt tg ns v).map Prod.fst = SHOPIFY_COLUMNS := by
  unfold emitRow
  repeat' split
  all_goals simp [keys_setCol, keys_emptyRow]

theorem getCol_emitRow_handle (first : Bool) (h t d vd pt tg : String)
    (ns : List String) (v : VariantRec) :
    getCol (emitRow first h t d vd pt tg ns v) "Handle" = some h := by
  unfold emitRow
  repeat' split
  all_goals simp [getCol_setCol, getCol_emptyRow_handle]

theorem getCol_emitRow_consts (first : Bool) (h t d vd pt tg : String)
    (ns : List String) (v : VariantRec) :
    getCol (emitRow first h t d vd pt tg ns v) "Variant Weight Unit" = some "g" ∧
    getCol (emitRow first h t d vd pt tg ns v) "Variant Inventory Tracker" = some "shopify" ∧
    getCol (emitRow first h t d vd pt tg ns v) "Variant Inventory Policy" = some "deny" ∧
    getCol (emitRow first h t d vd pt tg ns v) "Variant Fulfillment Service" = some "manual" ∧
    getCol (emitRow first h t d vd pt tg ns v) "Variant Requires Shipping" = some "TRUE" ∧
    getCol (emitRow first h t d vd pt tg ns v) "Variant Taxable" = some "TRUE" := by
  unfold emitRow
  repeat' split
  all_goals
    refine ⟨?_, ?_, ?_, ?_, ?_, ?_⟩ <;>
      simp [getCol_setCol, getCol_emptyRow_wwu, getCol_emptyRow_tracker,
        getCol_emptyRow_policy, getCol_emptyRow_fulfil, getCol_emptyRow_shipping,
        getCol_emptyRow_taxable]

theorem emitRows_length (h t d vd pt tg : String) (ns : List String)
    (vs : List VariantRec) :
    (emitRows h t d vd pt tg ns vs).length = vs.length := by
  cases vs <;> simp [emitRows]

theorem mem_emitRows {r : DestRow} (h t d vd pt tg : String) (ns : List String)
    (vs : List VariantRec) (hr : r ∈ emitRows h t d vd pt tg ns vs) :
    ∃ b v, v ∈ vs ∧ r = emitRow b h t d vd pt tg ns v := by
  cases vs with
  | nil => simp [emitRows] at hr
  | cons v vs =>
    simp only [emitRows, List.mem_cons] at hr
    rcases hr with hr | hr
    · exact ⟨true, v, by simp, hr⟩
    · rcases List.mem_map.mp hr with ⟨w, hw, hwe⟩
      exact ⟨false, w, by simp [hw], hwe.symm⟩

theorem cartesianProd_length (ls : List (List String)) :
    (cartesianProd ls).length = (ls.map List.length).prod := by
  induction ls with
  | nil => simp [cartesianProd]
  | cons l ls ih =>
    simp [cartesianProd, List.map_map, Function.comp_def, ih, Nat.mul_comm]

/-! ### Lemmas about the row builder -/

theorem keys_build {r : DestRow} (g : List SrcRow) (c : CommonCols)
    (anm avm : List (String × String)) (st : String)
    (hr : r ∈ build_shopify_rows_from_group g c anm avm st) :
    r.map Prod.fst = SHOPIFY_COLUMNS := by
  cases g with
  | nil => simp [build_shopify_rows_from_group] at hr
  | cons m rest =>
    obtain ⟨b, v, -, he⟩ := mem_emitRows _ _ _ _ _ _ _ _
      (by simpa [build_shopify_rows_from_group] using hr)
    rw [he]
    exact keys_emitRow ..

theorem getCol_build_handle {r : DestRow} (m : SrcRow) (rest : List SrcRow)
    (c : CommonCols) (anm avm : List (String × String)) (st : String)
    (hr : r ∈ build_shopify_rows_from_group (m :: rest) c anm avm st) :
    getCol r "Handle" = some (groupHandle c m) := by
  obtain ⟨b, v, -, he⟩ := mem_emitRows _ _ _ _ _ _ _ _
    (by simpa [build_shopify_rows_from_group] using hr)
  rw [he]
  exact getCol_emitRow_handle ..

theorem build_length (m : SrcRow) (rest : List SrcRow) (c : CommonCols)
    (anm avm : List (String × String)) (st : String) :
    (build_shopify_rows_from_group (m :: rest) c anm avm st).length =
      if explicitVariantRows (m :: rest) ≠ [] then (explicitVariantRows (m :: rest)).length
      else if discoveredLists m anm avm ≠ [] then
        ((discoveredLists m anm avm).map List.length).prod
      else 1 := by
  simp only [build_shopify_rows_from_group, emitRows_length, groupVariants]
  by_cases hv : explicitVariantRows (m :: rest) = []
  · by_cases hl : discoveredLists m anm avm = [] <;>
      simp [hv, hl, cartesianProd_length]
  · simp [hv]

/-! ### Lemmas about the decimal value model -/

theorem DecVal.ltInt_iff (d : DecVal) (k : Int) :
    d.ltInt k = true ↔ d.toRat < (k : ℚ) := by
  unfold DecVal.ltInt DecVal.toRat
  rw [div_lt_iff₀ (by positivity : (0 : ℚ) < (10 : ℚ) ^ d.e10)]
  simp only [decide_eq_true_eq]
  constructor
  · intro hlt; exact_mod_cast hlt
  · intro hlt; exact_mod_cast hlt

theorem DecVal.toRat_mul1000 (d : DecVal) : d.mul1000.toRat = d.toRat * 1000 := by
  unfold DecVal.mul1000 DecVal.toRat
  push_cast
  ring

theorem floor_nat_div_rat (n m : ℕ) : ⌊(n : ℚ) / (m : ℚ)⌋ = (n / m : ℕ) := by
  rw [← Int.natCast_floor_eq_floor (by positivity), Nat.floor_div_nat, Nat.floor_natCast]

theorem DecVal.trunc_eq (d : DecVal) : d.trunc = pyTrunc d.toRat := by
  unfold DecVal.trunc pyTrunc DecVal.toRat
  by_cases h : 0 ≤ d.num
  · have hq : 0 ≤ (d.num : ℚ) / (10 : ℚ) ^ d.e10 :=
      div_nonneg (by exact_mod_cast h) (by positivity)
    rw [if_pos h, if_pos hq]
    have hcast : ((d.num.toNat : ℕ) : ℚ) = (d.num : ℚ) := by
      exact_mod_cast congrArg (fun z : ℤ => (z : ℚ)) (Int.toNat_of_nonneg h)
    rw [← hcast, show ((10 : ℚ) ^ d.e10) = ((10 ^ d.e10 : ℕ) : ℚ) by push_cast; ring,
      floor_nat_div_rat]
  · have hn : d.num < 0 := lt_of_not_le h
    have hq : (d.num : ℚ) / (10 : ℚ) ^ d.e10 < 0 :=
      div_neg_of_neg_of_pos (by exact_mod_cast hn) (by positivity)
    rw [if_neg h, if_neg (not_le.mpr hq)]
    have hcast : -((d.num : ℚ) / (10 : ℚ) ^ d.e10) =
        ((d.num.natAbs : ℕ) : ℚ) / ((10 ^ d.e10 : ℕ) : ℚ) := by
      rw [← neg_div]
      congr 1
      · rw [← Int.cast_neg, ← Int.cast_natCast, Int.natCast_natAbs, abs_of_neg hn]
      · push_cast; ring
    rw [hcast, floor_nat_div_rat]

/-! ### Lemmas about slug collapsing (for the handle claims) -/

theorem collapseRunsAux_not_space (l : List Char) :
    ∀ b, ∀ c ∈ collapseRunsAux b l, pyIsSpace c = false := by
  induction l with
  | nil => intro b c hc; simp [collapseRunsAux] at hc
  | cons a cs ih =>
    intro b c hc
    by_cases ha : isHyphenSpace a
    · cases b with
      | true =>
        rw [show collapseRunsAux true (a :: cs) = collapseRunsAux true cs by
          simp [collapseRunsAux, ha]] at hc
        exact ih true c hc
      | false =>
        rw [show collapseRunsAux false (a :: cs) = '-' :: collapseRunsAux true cs by
          simp [collapseRunsAux, ha]] at hc
        rcases List.mem_cons.mp hc with rfl | hc
        · decide
        · exact ih true c hc
    · rw [show collapseRunsAux b (a :: cs) = a :: collapseRunsAux false cs by
        simp [collapseRunsAux, ha]] at hc
      rcases List.mem_cons.mp hc with rfl | hc
      · exact (by simpa [isHyphenSpace] using ha :
          pyIsSpace c = false ∧ ¬c = '-').1
      · exact ih false c hc

theorem collapseRunsAux_head_true (l : List Char) :
    ∀ c, (collapseRunsAux true l).head? = some c → isHyphenSpace c = false := by
  induction l with
  | nil => intro c hc; simp [collapseRunsAux] at hc
  | cons a cs ih =>
    intro c hc
    by_cases ha : isHyphenSpace a
    · rw [show collapseRunsAux true (a :: cs) = collapseRunsAux true cs by
        simp [collapseRunsAux, ha]] at hc
      exact ih c hc
    · rw [show collapseRunsAux true (a :: cs) = a :: collapseRunsAux false cs by
        simp [collapseRunsAux, ha]] at hc
      simp only [List.head?_cons, Option.some.injEq] at hc
      rw [← hc]
      simpa using ha

theorem collapseRunsAux_chain (l : List Char) :
    ∀ b, List.Chain' (fun a b' : Char => ¬(a = '-' ∧ b' = '-')) (collapseRunsAux b l) := by
  induction l with
  | nil => intro b; simp [collapseRunsAux]
  | cons a cs ih =>
    intro b
    by_cases ha : isHyphenSpace a
    · cases b with
      | true =>
        rw [show collapseRunsAux true (a :: cs) = collapseRunsAux true cs by
          simp [collapseRunsAux, ha]]
        exact ih true
      | false =>
        rw [show collapseRunsAux false (a :: cs) = '-' :: collapseRunsAux true cs by
          simp [collapseRunsAux, ha]]
        rw [List.chain'_cons']
        refine ⟨fun y hy => ?_, ih true⟩
        have hns := collapseRunsAux_head_true cs y (by simpa using hy)
        rintro ⟨-, rfl⟩
        simp [isHyphenSpace] at hns
    · rw [show collapseRunsAux b (a :: cs) = a :: collapseRunsAux false cs by
        simp [collapseRunsAux, ha]]
      rw [List.chain'_cons']
      refine ⟨fun y hy => ?_, ih false⟩
      rintro ⟨rfl, -⟩
      simp [isHyphenSpace] at ha

/-! ### Lemmas about substring containment (for platform detection) -/

theorem strContains_iff (hay needle : String) :
    strContains hay needle = true ↔ needle.data <:+: hay.data := by
  unfold strContains
  rw [List.any_eq_true]
  constructor
  · rintro ⟨t, ht, hp⟩
    exact List.infix_iff_prefix_suffix.mpr
      ⟨t, List.isPrefixOf_iff_prefix.mp hp, (List.mem_tails _ _).mp ht⟩
  · intro h
    obtain ⟨t, hpre, hsuf⟩ := List.infix_iff_prefix_suffix.mp h
    exact ⟨t, (List.mem_tails _ _).mpr hsuf, List.isPrefixOf_iff_prefix.mpr hpre⟩

theorem wixCond_eq (headers : List String) :
    wixCond headers = (headers.map pyLower).any (fun c => strContains c "media") := by
  unfold wixCond
  congr 1
  funext c
  by_cases h : strContains c "media" = true
  · simp [h]
  · have h2 : strContains c "product_media" = false := by
      rw [Bool.eq_false_iff]
      intro hpm
      exact absurd ((strContains_iff _ _).mpr
        (((by decide : ("media".data <:+: "product_media".data)).trans
          ((strContains_iff _ _).mp hpm)))) h
    simp [Bool.eq_false_iff.mpr h, h2]

theorem slugify_cases (s : String) :
    slugify s = "" ∨ slugify s = "product" ∨
    ∃ l, slugify s = String.mk (collapseRunsAux false l) := by
  unfold slugify collapseRuns
  by_cases h : s = ""
  · simp [h]
  · rw [if_neg h]
    dsimp only
    split
    · right; left; rfl
    · right; right; exact ⟨_, rfl⟩

theorem slugify_not_space (s : String) :
    ∀ c ∈ (slugify s).data, pyIsSpace c = false := by
  rcases slugify_cases s with h | h | ⟨l, h⟩ <;> rw [h]
  · simp
  · decide
  · exact collapseRunsAux_not_space l false

theorem slugify_chain (s : String) :
    List.Chain' (fun a b : Char => ¬(a = '-' ∧ b = '-')) (slugify s).data := by
  rcases slugify_cases s with h | h | ⟨l, h⟩ <;> rw [h]
  · simp
  · rw [show ("product" : String).data = ['p', 'r', 'o', 'd', 'u', 'c', 't'] from rfl]
    simp [List.chain'_cons]
  · exact collapseRunsAux_chain l false

/-! ### Lemmas lifting row facts through the converters -/

theorem mem_convertWith_exists_emitRow {r : DestRow} (st : String)
    (headers : List String) (rows : List SrcRow)
    (hr : r ∈ convertWith st headers rows) :
    ∃ b h t d vd pt tg ns v, r = emitRow b h t d vd pt tg ns v := by
  unfold convertWith at hr
  obtain ⟨chunk, hchunk, hrc⟩ := List.mem_flatten.mp hr
  obtain ⟨g, hg, rfl⟩ := List.mem_map.mp hchunk
  cases g with
  | nil => simp [build_shopify_rows_from_group] at hrc
  | cons m rest =>
    obtain ⟨b, v, hv, he⟩ := mem_emitRows _ _ _ _ _ _ _ _
      (by simpa [build_shopify_rows_from_group] using hrc)
    exact ⟨b, _, _, _, _, _, _, _, v, he⟩

theorem mem_convertTable_exists_emitRow {r : DestRow}
    (headers : List String) (rows : List SrcRow)
    (hr : r ∈ convertTable headers rows) :
    ∃ b h t d vd pt tg ns v, r = emitRow b h t d vd pt tg ns v := by
  simp only [convertTable, convert_wix_df_to_shopify,
    convert_woocommerce_df_to_shopify] at hr
  split at hr
  · exact mem_convertWith_exists_emitRow _ _ _ hr
  · split at hr
    · exact mem_convertWith_exists_emitRow _ _ _ hr
    · exact mem_convertWith_exists_emitRow _ _ _ hr

theorem keys_convertTable {r : DestRow} (headers : List String) (rows : List SrcRow)
    (hr : r ∈ convertTable headers rows) : r.map Prod.fst = SHOPIFY_COLUMNS := by
  obtain ⟨b, h, t, d, vd, pt, tg, ns, v, rfl⟩ :=
    mem_convertTable_exists_emitRow headers rows hr
  exact keys_emitRow ..

/-! ### The claims -/

/-- C2.  The claim says price cleanup maps `"€ 19,99"` to `"19.99"`; the code
in fact returns `"1999"`, because the cleanup regex removes the comma before
the comma-to-dot replacement runs (that replacement is dead code contradicting
its own comment), while `"abc"` does map to the empty string.  This theorem
evaluates the code at the failing input and at the agreeing one. -/
theorem C2_clean_price_at_failing_input :
    clean_price "€ 19,99" = "1999" ∧ ("1999" : String) ≠ "19.99" ∧
    clean_price "abc" = "" := by
  refine ⟨by decide, by decide, by decide⟩

/-- C8.  Weight cleanup maps `"1.5 kg"` to `"1500"` and `"500g"` to `"500"`;
whenever the stripped value parses to a finite number strictly below 10 the
result is that number scaled by 1000 and truncated (kilograms to grams), and
an unparsable value degrades to the empty string (the function is total, so
it never raises). -/
theorem C8_clean_weight_correct :
    clean_weight "1.5 kg" = "1500" ∧ clean_weight "500g" = "500" ∧
    (∀ s, weightParsed? s = none → clean_weight s = "") ∧
    (∀ s d, weightParsed? s = some (.finite d) → d.toRat < 10 →
      clean_weight s = toString (pyTrunc (d.toRat * 1000))) := by
  refine ⟨by decide, by decide, fun s h => ?_, fun s d h hlt => ?_⟩
  · unfold clean_weight
    rw [h]
  · unfold clean_weight
    rw [h]
    have hb : d.ltInt 10 = true := (DecVal.ltInt_iff d 10).mpr (by exact_mod_cast hlt)
    dsimp only
    rw [hb]
    simp only [if_true]
    rw [DecVal.trunc_eq, DecVal.toRat_mul1000]

/-- C8, witness: the theorem applied at the concrete input `"2"`. -/
theorem C8_clean_weight_correct_witness :
    clean_weight "2" = toString (pyTrunc ((⟨2, 0⟩ : DecVal).toRat * 1000)) :=
  C8_clean_weight_correct.2.2.2 "2" ⟨2, 0⟩ (by decide)
    (by exact_mod_cast (DecVal.ltInt_iff ⟨2, 0⟩ 10).mp (by decide))

/-- C6, counterexample.  The claim says no generated handle has a leading or
trailing hyphen and that non-alphanumerics are removed; the title `"-a"`
slugifies to `"-a"`, which starts with a hyphen (a hyphen present in the
title is kept, only whitespace-and-hyphen runs are collapsed), and the
underscore of `"a_b"` also survives, being a word character under `\w`. -/
theorem C6_counterexample :
    (slugify "-a" = "-a" ∧ (slugify "-a").data.head? = some '-') ∧
    slugify "a_b" = "a_b" := by
  refine ⟨⟨by decide, by decide⟩, by decide⟩

/-- C6, amended.  Handle generation maps `"Men's T-Shirt (Blue)!"` to
`"mens-t-shirt-blue"` and strips diacritics (`"Café"` becomes `"cafe"`); for
every title the handle contains no whitespace and no two adjacent hyphens
(whitespace runs collapse to single hyphens), but a hyphen already at the
edge of the title survives, so the no-edge-hyphen part of the claim holds
only for titles that do not themselves start or end with hyphens, and
underscores are kept. -/
theorem C6_slugify_amended :
    slugify "Men's T-Shirt (Blue)!" = "mens-t-shirt-blue" ∧
    slugify "Café" = "cafe" ∧
    ∀ s, (∀ c ∈ (slugify s).data, pyIsSpace c = false) ∧
      List.Chain' (fun a b : Char => ¬(a = '-' ∧ b = '-')) (slugify s).data :=
  ⟨by decide, by decide, fun s => ⟨slugify_not_space s, slugify_chain s⟩⟩

/-- C6, witness: the amended theorem applied at the concrete title `"m"`. -/
theorem C6_slugify_amended_witness : pyIsSpace 'm' = false :=
  (C6_slugify_amended.2.2 "m").1 'm' (by decide)

/-- C1, counterexample.  An attribute-value list is discovered on the master
row (the value map points at the cell `"|"`), it parses to the empty list,
the Cartesian product over `[[]]` is empty, and the group yields zero
destination rows: the product is silently dropped, refuting the claim. -/
theorem C1_counterexample :
    discoveredLists cexMasterC1 [] [("1", "Attr2")] = [[]] ∧
    build_shopify_rows_from_group cexGroupC1 cexCommonC1 [] [("1", "Attr2")]
      "woocommerce" = [] ∧
    ¬0 < (build_shopify_rows_from_group cexGroupC1 cexCommonC1 [] [("1", "Attr2")]
      "woocommerce").length := by
  refine ⟨by decide, by decide, by decide⟩

/-- C1, amended.  A non-empty group yields at least one destination variant
row provided every attribute-value list discovered on its master row parses
to a non-empty list (in particular when no list is discovered at all); when
some discovered list parses empty the Cartesian combination set is empty and
the group yields zero rows. -/
theorem C1_group_yields_row_amended (m : SrcRow) (rest : List SrcRow)
    (c : CommonCols) (anm avm : List (String × String)) (st : String)
    (h : ∀ l ∈ discoveredLists m anm avm, l ≠ []) :
    0 < (build_shopify_rows_from_group (m :: rest) c anm avm st).length := by
  rw [build_length]
  split
  · next hv => exact List.length_pos.mpr hv
  · split
    · next hl =>
      refine List.prod_pos fun x hx => ?_
      obtain ⟨l, hl2, rfl⟩ := List.mem_map.mp hx
      exact List.length_pos.mpr (h l hl2)
    · decide

/-- C1, witness: the amended theorem applied to a concrete one-row group with
no discovered attribute lists. -/
theorem C1_group_yields_row_amended_witness :
    0 < (build_shopify_rows_from_group [⟨0, [("Name", "Hat")]⟩]
      { title := some "Name" } [] [] "woocommerce").length :=
  C1_group_yields_row_amended ⟨0, [("Name", "Hat")]⟩ []
    { title := some "Name" } [] [] "woocommerce" (by decide)

/-- C4.  For a (non-empty) product group the number of emitted destination
rows equals the number of explicit variant rows when at least one is present,
else the size of the Cartesian product of the attribute-value lists
discovered on the master row, else exactly 1. -/
theorem C4_emitted_variant_count (m : SrcRow) (rest : List SrcRow)
    (c : CommonCols) (anm avm : List (String × String)) (st : String) :
    (build_shopify_rows_from_group (m :: rest) c anm avm st).length =
      if explicitVariantRows (m :: rest) ≠ [] then
        (explicitVariantRows (m :: rest)).length
      else if discoveredLists m anm avm ≠ [] then
        (cartesianProd (discoveredLists m anm avm)).length
      else 1 := by
  rw [build_length, cartesianProd_length]

/-- C3.  The claim says an explicit variant inherits the master value for a
field whose own cell is empty.  In the code the master value is only the
`Series.get` DEFAULT, which applies when the column is absent, never when the
cell is empty; on this group the master SKU is `"ABC"`, the variant's SKU
cell is the empty string, and the emitted variant row carries SKU `""`
instead of the inherited `"ABC"`. -/
theorem C3_empty_variant_cell_not_inherited :
    (masterValsOf cexCommonC3 "woocommerce" (cexGroupC3.headD ⟨0, []⟩)).sku = "ABC" ∧
    (build_shopify_rows_from_group cexGroupC3 cexCommonC3 [] [] "woocommerce").map
      (fun r => getCol r "Variant SKU") = [some ""] ∧
    (some "" : Option String) ≠ some "ABC" := by
  refine ⟨by decide, by decide, by decide⟩

/-- C7, counterexample.  The claim says the fallback handle is derived from
the product identifier.  The code uses `master.name`, the data-frame index
label of the master row: with identifier `"SKU9"` on index 0 and a blank
title, the emitted handle is `"product-0"`, not `"product-SKU9"`. -/
theorem C7_counterexample :
    (build_shopify_rows_from_group cexGroupC7 cexCommonC7 [] [] "woocommerce").map
      (fun r => getCol r "Handle") = [some "product-0"] ∧
    rowGetD (cexGroupC7.headD ⟨0, []⟩) "ID" "" = "SKU9" ∧
    ("product-0" : String) ≠ "product-SKU9" := by
  refine ⟨by decide, by decide, by decide⟩

/-- C7, amended.  When the mapped title of the master row is missing or
blank, every emitted row of the group carries the non-empty synthetic handle
`product-` followed by the master row's data-frame index label (the row
position in the source file, unique per group since distinct groups have
distinct master rows) — not the value of the product identifier column. -/
theorem C7_handle_fallback_amended (m : SrcRow) (rest : List SrcRow)
    (c : CommonCols) (anm avm : List (String × String)) (st : String)
    (htitle : fieldStr c.title m = "") {r : DestRow}
    (hr : r ∈ build_shopify_rows_from_group (m :: rest) c anm avm st) :
    getCol r "Handle" = some ("product-" ++ toString m.label) ∧
    ("product-" ++ toString m.label) ≠ "" := by
  have hh := getCol_build_handle m rest c anm avm st hr
  have hgh : groupHandle c m = "product-" ++ toString m.label := by
    unfold groupHandle
    rw [htitle]
    rfl
  refine ⟨hgh ▸ hh, fun habs => ?_⟩
  have := congrArg String.data habs
  rw [String.data_append] at this
  simp at this

/-- C7, witness: the amended theorem applied to the concrete blank-title
group. -/
theorem C7_handle_fallback_amended_witness :
    getCol ((build_shopify_rows_from_group cexGroupC7 cexCommonC7 [] []
        "woocommerce").headD []) "Handle" = some ("product-" ++ toString 0) ∧
    ("product-" ++ toString 0) ≠ "" :=
  C7_handle_fallback_amended ⟨0, [("ID", "SKU9"), ("Name", " ")]⟩ []
    cexCommonC7 [] [] "woocommerce" (by decide) (by decide)

/-- C9.  Every destination row produced by a conversion, for every input and
every detected platform, carries exactly the full fixed Shopify column order
(so unset columns hold the empty string placed there at row creation, never
an absent entry), and lookup succeeds on every canonical column. -/
theorem C9_full_schema (headers : List String) (rows : List SrcRow)
    {r : DestRow} (hr : r ∈ convertTable headers rows) :
    r.map Prod.fst = SHOPIFY_COLUMNS ∧
    ∀ c ∈ SHOPIFY_COLUMNS, (getCol r c).isSome := by
  have hk := keys_convertTable headers rows hr
  exact ⟨hk, fun c hc => getCol_isSome_of_mem_keys (hk ▸ hc)⟩

/-- C9, witness: the theorem applied to a concrete one-row unknown-platform
table. -/
theorem C9_full_schema_witness :
    ((convertTable ["Foo"] [⟨0, [("Foo", "x")]⟩]).headD []).map Prod.fst =
      SHOPIFY_COLUMNS :=
  (C9_full_schema ["Foo"] [⟨0, [("Foo", "x")]⟩] (by decide)).1

/-- C10.  Every destination row produced by a conversion carries the constant
variant fields: weight unit `g`, inventory tracker `shopify`, inventory
policy `deny`, fulfillment service `manual`, requires-shipping `TRUE` and
taxable `TRUE`. -/
theorem C10_constant_variant_fields (headers : List String) (rows : List SrcRow)
    {r : DestRow} (hr : r ∈ convertTable headers rows) :
    getCol r "Variant Weight Unit" = some "g" ∧
    getCol r "Variant Inventory Tracker" = some "shopify" ∧
    getCol r "Variant Inventory Policy" = some "deny" ∧
    getCol r "Variant Fulfillment Service" = some "manual" ∧
    getCol r "Variant Requires Shipping" = some "TRUE" ∧
    getCol r "Variant Taxable" = some "TRUE" := by
  obtain ⟨b, h, t, d, vd, pt, tg, ns, v, rfl⟩ :=
    mem_convertTable_exists_emitRow headers rows hr
  exact getCol_emitRow_consts ..

/-- C10, witness: the theorem applied to a concrete one-row table. -/
theorem C10_constant_variant_fields_witness :
    getCol ((convertTable ["Foo"] [⟨0, [("Foo", "x")]⟩]).headD [])
      "Variant Weight Unit" = some "g" :=
  (C10_constant_variant_fields ["Foo"] [⟨0, [("Foo", "x")]⟩] (by decide)).1

/-- C5.  Platform detection returns `wix` exactly when some header contains
`media` (case-insensitively); otherwise `woocommerce` exactly when at least
two WooCommerce indicator terms match; otherwise `prestashop` exactly when at
least two PrestaShop indicator terms match; otherwise `unknown` — the first
satisfied rule wins in that order — and on an `unknown` detection the
conversion dispatch still runs the WooCommerce fallback conversion, whose
every output row carries the full destination schema. -/
theorem C5_platform_detection :
    (∀ headers, detect_file_type headers = "wix" ↔
      ((headers.map pyLower).any (fun c => strContains c "media")) = true) ∧
    (∀ headers, ¬((headers.map pyLower).any (fun c => strContains c "media")) = true →
      (detect_file_type headers = "woocommerce" ↔
        2 ≤ indicatorCount woo_indicators headers)) ∧
    (∀ headers, ¬((headers.map pyLower).any (fun c => strContains c "media")) = true →
      indicatorCount woo_indicators headers < 2 →
      (detect_file_type headers = "prestashop" ↔
        2 ≤ indicatorCount prestashop_indicators headers)) ∧
    (∀ headers, detect_file_type headers = "unknown" ↔
      (¬((headers.map pyLower).any (fun c => strContains c "media")) = true ∧
        indicatorCount woo_indicators headers < 2 ∧
        indicatorCount prestashop_indicators headers < 2)) ∧
    (∀ headers rows, detect_file_type headers = "unknown" →
      convertTable headers rows = convert_woocommerce_df_to_shopify headers rows ∧
      ∀ r ∈ convertTable headers rows, r.map Prod.fst = SHOPIFY_COLUMNS) := by
  have hwix : ∀ headers, wixCond headers =
      ((headers.map pyLower).any (fun c => strContains c "media")) := wixCond_eq
  refine ⟨fun headers => ?_, fun headers hm => ?_, fun headers hm hw => ?_,
    fun headers => ?_, fun headers rows hu => ?_⟩
  · unfold detect_file_type
    rw [hwix]
    by_cases h : ((headers.map pyLower).any (fun c => strContains c "media")) = true
    · rw [if_pos h]
      exact iff_of_true rfl h
    · rw [if_neg h]
      refine iff_of_false ?_ h
      by_cases h2 : 2 ≤ indicatorCount woo_indicators headers
      · rw [if_pos h2]; decide
      · rw [if_neg h2]
        by_cases h3 : 2 ≤ indicatorCount prestashop_indicators headers
        · rw [if_pos h3]; decide
        · rw [if_neg h3]; decide
  · unfold detect_file_type
    rw [hwix, if_neg hm]
    by_cases h2 : 2 ≤ indicatorCount woo_indicators headers
    · rw [if_pos h2]
      exact iff_of_true rfl h2
    · rw [if_neg h2]
      refine iff_of_false ?_ h2
      by_cases h3 : 2 ≤ indicatorCount prestashop_indicators headers
      · rw [if_pos h3]; decide
      · rw [if_neg h3]; decide
  · unfold detect_file_type
    rw [hwix, if_neg hm, if_neg (by omega)]
    by_cases h3 : 2 ≤ indicatorCount prestashop_indicators headers
    · rw [if_pos h3]
      exact iff_of_true rfl h3
    · rw [if_neg h3]
      exact iff_of_false (by decide) h3
  · unfold detect_file_type
    rw [hwix]
    by_cases h1 : ((headers.map pyLower).any (fun c => strContains c "media")) = true
    · rw [if_pos h1]
      exact iff_of_false (by decide) (fun hc => hc.1 h1)
    · rw [if_neg h1]
      by_cases h2 : 2 ≤ indicatorCount woo_indicators headers
      · rw [if_pos h2]
        exact iff_of_false (by decide) (fun hc => by omega)
      · rw [if_neg h2]
        by_cases h3 : 2 ≤ indicatorCount prestashop_indicators headers
        · rw [if_pos h3]
          exact iff_of_false (by decide) (fun hc => by omega)
        · rw [if_neg h3]
          exact iff_of_true rfl ⟨h1, by omega, by omega⟩
  · constructor
    · simp only [convertTable]
      rw [hu]
      simp
    · intro r hr
      exact keys_convertTable headers rows hr

/-- C5, witness: the dispatch clause applied to a concrete unknown-platform
table. -/
theorem C5_platform_detection_witness :
    convertTable ["Col A"] [⟨0, [("Col A", "x")]⟩] =
      convert_woocommerce_df_to_shopify ["Col A"] [⟨0, [("Col A", "x")]⟩] :=
  (C5_platform_detection.2.2.2.2 ["Col A"] [⟨0, [("Col A", "x")]⟩] (by decide)).1
